import Mathlib

/-!
Formal model of the `ImageCarousel` widget of the acm-photobook repository.

The repository contains two variants of the carousel component:

* the captioned variant (continuous commit policy, Gaussian depth scale,
  `maxOffset`-based opacity), referred to below as the continuous variant;
* the placeholder variant (threshold commit policy, piecewise-linear depth
  scale), referred to below as the threshold variant.

Shallow embedding conventions:

* JavaScript numbers are modelled as exact rationals (`ℚ`), except where the
  code applies the transcendental `Math.exp`, where reals (`ℝ`) are used.
* The JavaScript `%` operator is the truncated remainder: on integers it is
  `Int.tmod` (the sign of the result follows the dividend); on general
  numbers it is `a - n * trunc (a / n)`.
* `Math.round` rounds half-up: `round x = ⌊x + 1/2⌋`.
* JavaScript array indexing `xs[i]` returns `undefined` out of range,
  modelled as `Option`.
* React state is modelled as an explicit `CarouselState` record; an event
  handler is a function from state to state.  A `useCallback` closure reads
  the `isDragging` value of the render in which it was created; at the time
  a handler for an in-flight gesture runs, that value is the current
  pre-transition state value, so the embedding passes it explicitly.
-/

namespace Photobook

/-- JavaScript `Math.trunc` on a rational: rounds toward zero. -/
def jsTrunc (q : ℚ) : ℤ := if 0 ≤ q then ⌊q⌋ else ⌈q⌉

/-- JavaScript `%` on finite numbers with nonzero divisor: the truncated
remainder `a - n * trunc (a / n)`. -/
def jsFmod (a n : ℚ) : ℚ := a - n * (jsTrunc (a / n) : ℚ)

/-- JavaScript `Math.round`: rounds half-up, `round x = ⌊x + 1/2⌋`. -/
def jsRound (q : ℚ) : ℤ := ⌊q + 1/2⌋

/-- JavaScript array indexing `xs[i]`: `some` element when `0 ≤ i < length`,
otherwise `undefined`, modelled as `none`. -/
def jsIndex {α : Type} (xs : List α) (i : ℤ) : Option α :=
  if h : 0 ≤ i ∧ i.toNat < xs.length then some (xs.get ⟨i.toNat, h.2⟩) else none

/-- Configuration constant of the continuous variant: drag sensitivity
divisor (`SENSITIVITY = 200`). -/
def SENSITIVITY : ℚ := 200

/-- Configuration constant: horizontal spread per offset unit. -/
def SPREAD : ℚ := 120

/-- Configuration constant: minimum depth scale. -/
def MIN_SCALE : ℝ := 0.5

/-- Configuration constant: maximum depth scale. -/
def MAX_SCALE : ℝ := 1

/-- Configuration constant: spread factor of the Gaussian depth scale. -/
def SCALE_SPREAD : ℝ := 0.5

/-- Gaussian depth-scale helper of the continuous variant:
`gaussian(x, min, max, spread) = (max - min) * exp(-x*x/(2*spread)) + min`. -/
noncomputable def gaussian (x mn mx spread : ℝ) : ℝ :=
  (mx - mn) * Real.exp (-x * x / (2 * spread)) + mn

/-- Derived quantity of the continuous variant:
`maxOffset = Math.max(Math.floor(totalImages / 2) - 2)`.  Note that
`Math.max` is applied to a single argument in the source, so it is the
identity; `Math.floor` of a nonnegative half is Nat division. -/
def maxOffset (totalImages : ℕ) : ℤ := ((totalImages / 2 : ℕ) : ℤ) - 2

/-- Signed circular offset pipeline of `getImageStyle` in the continuous
variant:
`offset = (indexOffset + dragOffset + totalImages) % totalImages` followed by
`adjustedOffset = offset > totalImages / 2 ? offset - totalImages : offset`.
The drag fraction `dragOffset = (currentX - startX) / SENSITIVITY` is passed
as a parameter. -/
def adjustedOffset (index currentIndex : ℤ) (totalImages : ℕ) (dragOffset : ℚ) : ℚ :=
  let indexOffset : ℚ := (index : ℚ) - (currentIndex : ℚ)
  let offset := jsFmod (indexOffset + dragOffset + (totalImages : ℚ)) (totalImages : ℚ)
  if offset > (totalImages : ℚ) / 2 then offset - (totalImages : ℚ) else offset

/-- Opacity computation of `getImageStyle` in the continuous variant:
`opacity = Math.max(0, 1 - (absOffset - 1) / maxOffset)`, where `absOffset`
is the absolute value of the adjusted offset. -/
def opacity (totalImages : ℕ) (adjOffset : ℚ) : ℚ :=
  max 0 (1 - (|adjOffset| - 1) / ((maxOffset totalImages : ℤ) : ℚ))

/-- Index update of the continuous variant:
`offsetImage(offset)` sets `currentIndex` to
`(prevIndex + offset + totalImages) % totalImages`, where `%` is the
JavaScript truncated remainder on integers. -/
def offsetImage (totalImages : ℕ) (offset prevIndex : ℤ) : ℤ :=
  Int.tmod (prevIndex + offset + (totalImages : ℤ)) (totalImages : ℤ)

/-- Mutable widget state: `currentIndex`, `isDragging`, `startX`, `currentX`
as in both variants, plus `dragOffset`, present only in the threshold
variant (it is zero throughout in the continuous variant). -/
structure CarouselState where
  currentIndex : ℤ
  isDragging : Bool
  startX : ℚ
  currentX : ℚ
  dragOffset : ℚ
  deriving Repr, DecidableEq

/-- Mount-time state: `useState(0)`, `useState(false)`, `useState(0)`,
`useState(0)` (and `useState(0)` for the threshold-variant drag offset). -/
def initialState : CarouselState :=
  { currentIndex := 0, isDragging := false, startX := 0, currentX := 0, dragOffset := 0 }

/-- Drag start handler (both variants): enters the dragging state recording
the pointer position. -/
def handleStart (clientX : ℚ) (s : CarouselState) : CarouselState :=
  { s with isDragging := true, startX := clientX, currentX := clientX }

/-- Drag move handler of the continuous variant: ignored when not dragging,
otherwise records the pointer position. -/
def handleMove (clientX : ℚ) (s : CarouselState) : CarouselState :=
  if !s.isDragging then s else { s with currentX := clientX }

/-- Drag end handler of the continuous variant: when dragging, commits
`offset = -Math.round((currentX - startX) / SENSITIVITY)` through
`offsetImage` and resets the drag state. -/
def handleEnd (totalImages : ℕ) (s : CarouselState) : CarouselState :=
  if !s.isDragging then s
  else
    let offset : ℤ := -jsRound ((s.currentX - s.startX) / SENSITIVITY)
    { s with currentIndex := offsetImage totalImages offset s.currentIndex,
             isDragging := false, startX := 0, currentX := 0 }

/-- Click on the previous-arrow button of the continuous variant.  The button
carries `disabled={isDragging}` (and `pointer-events-none` while dragging),
so a click event reaches `offsetImage(-1)` only when not dragging. -/
def prevArrowClick (totalImages : ℕ) (s : CarouselState) : CarouselState :=
  if s.isDragging then s
  else { s with currentIndex := offsetImage totalImages (-1) s.currentIndex }

/-- Click on the next-arrow button of the continuous variant, guarded by
`disabled={isDragging}` like the previous-arrow button. -/
def nextArrowClick (totalImages : ℕ) (s : CarouselState) : CarouselState :=
  if s.isDragging then s
  else { s with currentIndex := offsetImage totalImages 1 s.currentIndex }

/-- Click-to-select on an item (identical in both variants):
`if (index !== currentIndex && !isDragging) setCurrentIndex(index)`. -/
def itemClick (index : ℤ) (s : CarouselState) : CarouselState :=
  if index ≠ s.currentIndex ∧ s.isDragging = false then
    { s with currentIndex := index }
  else s

/-- Caption display of the continuous variant: the render reads
`images[currentIndex].caption`.  The result is `none` exactly when
`images[currentIndex]` is `undefined`, in which case the property access in
the source throws a TypeError. -/
def captionDisplay (images : List String) (s : CarouselState) : Option String :=
  jsIndex images s.currentIndex

/-- Piecewise-linear depth scale of the threshold variant, as a function of
`absOffset = |finalOffset|`:
center 1; `1 - a * 0.3` for `a ≤ 1`; `0.7 - (a - 1) * 0.2` for `a ≤ 2`;
`0.5 - (a - 2) * 0.1` beyond. -/
def pwScale (absOffset : ℚ) : ℚ :=
  if absOffset = 0 then 1
  else if absOffset ≤ 1 then 1 - absOffset * 0.3
  else if absOffset ≤ 2 then 0.7 - (absOffset - 1) * 0.2
  else 0.5 - (absOffset - 2) * 0.1

/-- Discrete next navigation of the threshold variant:
`if (!isDragging) setCurrentIndex((prevIndex + 1) % totalImages)`.  The
`isDragging` value read is that of the closure of the render that created
the callback, passed explicitly as `isDraggingAtRender`. -/
def nextImage (totalImages : ℕ) (isDraggingAtRender : Bool) (s : CarouselState) :
    CarouselState :=
  if !isDraggingAtRender then
    { s with currentIndex := Int.tmod (s.currentIndex + 1) (totalImages : ℤ) }
  else s

/-- Discrete previous navigation of the threshold variant:
`if (!isDragging) setCurrentIndex((prevIndex - 1 + totalImages) % totalImages)`. -/
def prevImage (totalImages : ℕ) (isDraggingAtRender : Bool) (s : CarouselState) :
    CarouselState :=
  if !isDraggingAtRender then
    { s with currentIndex := Int.tmod (s.currentIndex - 1 + (totalImages : ℤ)) (totalImages : ℤ) }
  else s

/-- Drag end handler of the threshold variant: when dragging, navigates by
one step if `|currentX - startX| > 50`, then resets the drag state.  The
`prevImage` and `nextImage` callbacks it invokes close over the `isDragging`
value of the render in which they were created, which is the pre-transition
value `s.isDragging` (still `true` while the gesture is being ended, since
`setIsDragging(false)` runs only afterwards). -/
def handleEndThreshold (totalImages : ℕ) (s : CarouselState) : CarouselState :=
  if !s.isDragging then s
  else
    let diff := s.currentX - s.startX
    let threshold : ℚ := 50
    let s1 :=
      if |diff| > threshold then
        if diff > 0 then prevImage totalImages s.isDragging s
        else nextImage totalImages s.isDragging s
      else s
    { s1 with isDragging := false, dragOffset := 0, startX := 0, currentX := 0 }


/-! ## Helper lemmas -/

/-- On a nonnegative integer dividend and a positive natural divisor, the
JavaScript truncated remainder agrees with the Euclidean remainder. -/
theorem jsFmod_intCast (a : ℤ) (n : ℕ) (ha : 0 ≤ a) (hn : 0 < n) :
    jsFmod (a : ℚ) (n : ℚ) = ((a % (n : ℤ) : ℤ) : ℚ) := by
  unfold jsFmod jsTrunc
  have h1 : (0 : ℚ) ≤ (a : ℚ) / (n : ℚ) := by positivity
  rw [if_pos h1, Rat.floor_intCast_div_natCast a n]
  have h2 : a % (n : ℤ) = a - (n : ℤ) * (a / (n : ℤ)) := Int.emod_def a (n : ℤ)
  push_cast [h2]
  ring

/-- The item at the current index has adjusted offset zero when no drag is in
progress. -/
theorem adjustedOffset_self (n : ℕ) (hn : 0 < n) (c : ℤ) (d : ℚ) (hd : d = 0) :
    adjustedOffset c c n d = 0 := by
  subst hd
  simp only [adjustedOffset]
  have h0 : ((c : ℚ) - (c : ℚ) + 0 + (n : ℚ)) = ((n : ℤ) : ℚ) := by push_cast; ring
  rw [h0, jsFmod_intCast n n (by positivity) hn]
  simp [Int.emod_self]
  intro h
  have : (0 : ℚ) < (n : ℚ) / 2 := by positivity
  linarith

/-- Committing a zero index delta on an in-range index is the identity. -/
theorem offsetImage_id (n : ℕ) (c : ℤ) (hn : 0 < n) (hc0 : 0 ≤ c) (hc1 : c < (n : ℤ)) :
    offsetImage n 0 c = c := by
  unfold offsetImage
  rw [Int.tmod_eq_emod (by omega) (by omega)]
  have h1 : (c + 0 + (n : ℤ)) = c + (n : ℤ) * 1 := by ring
  rw [h1, Int.add_mul_emod_self_left, Int.emod_eq_of_lt hc0 hc1]

/-- With no drag in progress, the adjusted offset of every item lies in the
half-open symmetric interval. -/
theorem adjustedOffset_range_aux (n : ℕ) (i c : ℤ) (hn : 1 ≤ n)
    (hi0 : 0 ≤ i) (hc1 : c < (n : ℤ)) :
    -(n : ℚ) / 2 < adjustedOffset i c n 0 ∧ adjustedOffset i c n 0 ≤ (n : ℚ) / 2 := by
  simp only [adjustedOffset]
  have ha : (0 : ℤ) ≤ i - c + (n : ℤ) := by omega
  have hn' : (0 : ℤ) < (n : ℤ) := by exact_mod_cast hn
  have h0 : ((i : ℚ) - (c : ℚ) + 0 + (n : ℚ)) = ((i - c + (n : ℤ) : ℤ) : ℚ) := by
    push_cast; ring
  rw [h0, jsFmod_intCast _ n ha (by omega)]
  set r : ℤ := (i - c + (n : ℤ)) % (n : ℤ) with hr
  have hr0 : 0 ≤ r := Int.emod_nonneg _ (by omega)
  have hr1 : r < (n : ℤ) := Int.emod_lt_of_pos _ hn'
  have hr0' : (0 : ℚ) ≤ (r : ℚ) := by exact_mod_cast hr0
  have hr1' : (r : ℚ) < (n : ℚ) := by exact_mod_cast hr1
  have hnq : (1 : ℚ) ≤ (n : ℚ) := by exact_mod_cast hn
  split_ifs with h
  · constructor <;> linarith
  · push_neg at h
    constructor <;> linarith

/-- Exact range of the opacity value computed by the continuous variant, for
a positive `maxOffset`: it is nonnegative, bounded by `1 + 1/maxOffset`
(attained at adjusted offset zero), and zero exactly from `maxOffset + 1`
on. -/
theorem opacity_bounds (n : ℕ) (adj : ℚ) (hm : 1 ≤ maxOffset n) :
    0 ≤ opacity n adj ∧ opacity n adj ≤ 1 + 1 / ((maxOffset n : ℤ) : ℚ) ∧
    (adj = 0 → opacity n adj = 1 + 1 / ((maxOffset n : ℤ) : ℚ)) ∧
    (opacity n adj = 0 ↔ ((maxOffset n : ℤ) : ℚ) + 1 ≤ |adj|) := by
  set m : ℚ := ((maxOffset n : ℤ) : ℚ) with hmdef
  have hm' : (1 : ℚ) ≤ m := by rw [hmdef]; exact_mod_cast hm
  have hm0 : (0 : ℚ) < m := by linarith
  have habs : (0 : ℚ) ≤ |adj| := abs_nonneg adj
  refine ⟨le_max_left 0 _, ?_, ?_, ?_⟩
  · apply max_le
    · positivity
    · have h1 : (-1 : ℚ) / m ≤ (|adj| - 1) / m := by
        gcongr
        linarith
      have h2 : (-1 : ℚ) / m = -(1 / m) := by ring
      linarith
  · intro h
    subst h
    unfold opacity
    rw [← hmdef]
    have h3 : 1 - (|(0 : ℚ)| - 1) / m = 1 + 1 / m := by
      rw [abs_zero]
      ring
    rw [h3]
    exact max_eq_right (by positivity)
  · constructor
    · intro h0
      by_contra hlt
      push_neg at hlt
      have h5 : (|adj| - 1) / m < 1 := (div_lt_one hm0).mpr (by linarith)
      have h6 : (0 : ℚ) < 1 - (|adj| - 1) / m := by linarith
      have h7 : opacity n adj = 1 - (|adj| - 1) / m := by
        unfold opacity
        rw [← hmdef]
        exact max_eq_right h6.le
      rw [h7] at h0
      linarith
    · intro h
      unfold opacity
      rw [← hmdef]
      apply max_eq_left
      have h4 : m / m ≤ (|adj| - 1) / m := by
        gcongr
        linarith
      rw [div_self (ne_of_gt hm0)] at h4
      linarith

/-- The piecewise-linear depth scale of the threshold variant is antitone on
nonnegative offsets. -/
theorem pwScale_anti (a b : ℚ) (ha : 0 ≤ a) (hab : a ≤ b) : pwScale b ≤ pwScale a := by
  unfold pwScale
  split_ifs <;> linarith

/-- The piecewise-linear depth scale is strictly below the center value away
from the center. -/
theorem pwScale_lt_one (a : ℚ) (ha : 0 < a) : pwScale a < 1 := by
  unfold pwScale
  split_ifs <;> linarith

/-- The Gaussian depth scale is maximised at offset zero. -/
theorem gaussian_le_center (x : ℝ) :
    gaussian x MIN_SCALE MAX_SCALE SCALE_SPREAD
      ≤ gaussian 0 MIN_SCALE MAX_SCALE SCALE_SPREAD := by
  unfold gaussian MIN_SCALE MAX_SCALE SCALE_SPREAD
  norm_num
  have h1 : Real.exp (-(x * x)) ≤ 1 := by
    rw [Real.exp_le_one_iff]
    nlinarith [mul_self_nonneg x]
  linarith

/-- The Gaussian depth scale attains its center value only at offset zero. -/
theorem gaussian_eq_center (x : ℝ)
    (h : gaussian x MIN_SCALE MAX_SCALE SCALE_SPREAD
       = gaussian 0 MIN_SCALE MAX_SCALE SCALE_SPREAD) : x = 0 := by
  unfold gaussian MIN_SCALE MAX_SCALE SCALE_SPREAD at h
  norm_num at h
  have h2 : Real.exp (-(x * x)) = 1 := by linarith
  rw [Real.exp_eq_one_iff] at h2
  nlinarith [mul_self_nonneg x]

/-- The Gaussian depth scale is antitone in the absolute offset. -/
theorem gaussian_mono (a b : ℝ) (h : |a| ≤ |b|) :
    gaussian b MIN_SCALE MAX_SCALE SCALE_SPREAD
      ≤ gaussian a MIN_SCALE MAX_SCALE SCALE_SPREAD := by
  unfold gaussian MIN_SCALE MAX_SCALE SCALE_SPREAD
  norm_num
  have h2 : a * a ≤ b * b := by
    have h3 := mul_self_le_mul_self (abs_nonneg a) h
    rwa [abs_mul_abs_self, abs_mul_abs_self] at h3
  have h4 : Real.exp (-(b * b)) ≤ Real.exp (-(a * a)) := by
    apply Real.exp_le_exp.mpr
    linarith
  linarith


/-! ## Claim theorems -/

/-- C1: the claimed invariant fails on the code.  The index update
`offsetImage` does wrap a single backward step (`n = 7`, `c = 0`,
`delta = -1` gives `6`), but the JavaScript remainder keeps the sign of the
dividend, so the large negative delta `-10` (produced by a 2000px rightward
drag with sensitivity 200) yields the out-of-range index `-3` instead of a
value in `[0, 7)`. -/
theorem offsetImage_large_negative_delta_escapes :
    offsetImage 7 (-1) 0 = 6 ∧ offsetImage 7 (-10) 0 = -3 ∧
    offsetImage 7 (-10) 0 < 0 := by
  refine ⟨by decide, by decide, by decide⟩

/-- C2 counterexample, in three parts, one per corrected conjunct of the
claim.  With the ten images supplied by the host page (`maxOffset = 3`):
the centered item at rest gets opacity `4/3`, outside `[0, 1]` and not `1`;
and a mid-drag item at adjusted offset `7/2`, which exceeds `maxOffset`,
gets opacity `1/6`, not `0`.  With three images (`maxOffset = -1`), the item
at adjusted offset `1` at rest exceeds `maxOffset` yet gets opacity `1`, so
the claimed zero-beyond-`maxOffset` behaviour also fails outright for small
item counts (and `maxOffset = 0`, at four or five images, divides by
zero). -/
theorem opacity_claim_counterexamples :
    (opacity 10 (adjustedOffset 0 0 10 0) = 4/3 ∧
      ¬ opacity 10 (adjustedOffset 0 0 10 0) ≤ 1) ∧
    (((maxOffset 10 : ℤ) : ℚ) < |adjustedOffset 4 0 10 (-1/2)| ∧
      opacity 10 (adjustedOffset 4 0 10 (-1/2)) = 1/6) ∧
    (((maxOffset 3 : ℤ) : ℚ) < |adjustedOffset 1 0 3 0| ∧
      opacity 3 (adjustedOffset 1 0 3 0) = 1) := by
  have h1 : adjustedOffset 4 0 10 (-1/2) = 7/2 := by
    norm_num [adjustedOffset, jsFmod, jsTrunc]
  have h2 : adjustedOffset 1 0 3 0 = 1 := by
    norm_num [adjustedOffset, jsFmod, jsTrunc]
  refine ⟨⟨?_, ?_⟩, ?_, ?_⟩
  · norm_num [opacity, adjustedOffset, jsFmod, jsTrunc, maxOffset]
  · norm_num [opacity, adjustedOffset, jsFmod, jsTrunc, maxOffset]
  · rw [h1]
    constructor
    · rw [abs_of_nonneg (by norm_num : (0:ℚ) ≤ 7/2)]
      norm_num [maxOffset]
    · unfold opacity
      rw [show |(7/2 : ℚ)| = 7/2 from abs_of_nonneg (by norm_num)]
      norm_num [maxOffset]
  · rw [h2]
    constructor
    · rw [abs_of_nonneg (by norm_num : (0:ℚ) ≤ 1)]
      norm_num [maxOffset]
    · unfold opacity
      rw [show |(1 : ℚ)| = 1 from abs_of_nonneg (by norm_num)]
      norm_num [maxOffset]

/-- C2 amended: for every item index, current index and drag fraction, with
`maxOffset ≥ 1` (item count at least six; smaller counts falsify the claim
outright or divide by zero, see the counterexample), the opacity computed by
the continuous-variant layout pipeline lies in `[0, 1 + 1/maxOffset]`; the
centered item at rest attains the maximum `1 + 1/maxOffset` (not `1`), and
the opacity is `0` exactly when the absolute adjusted offset reaches
`maxOffset + 1` (not strictly beyond `maxOffset`). -/
theorem opacity_range_amended (n : ℕ) (i c : ℤ) (d : ℚ) (hm : 1 ≤ maxOffset n) :
    0 ≤ opacity n (adjustedOffset i c n d) ∧
    opacity n (adjustedOffset i c n d) ≤ 1 + 1 / ((maxOffset n : ℤ) : ℚ) ∧
    opacity n (adjustedOffset c c n 0) = 1 + 1 / ((maxOffset n : ℤ) : ℚ) ∧
    (opacity n (adjustedOffset i c n d) = 0 ↔
      ((maxOffset n : ℤ) : ℚ) + 1 ≤ |adjustedOffset i c n d|) := by
  have hn : 0 < n := by
    unfold maxOffset at hm
    omega
  obtain ⟨h1, h2, h3, h4⟩ := opacity_bounds n (adjustedOffset i c n d) hm
  refine ⟨h1, h2, ?_, h4⟩
  rw [adjustedOffset_self n hn c 0 rfl]
  exact (opacity_bounds n 0 hm).2.2.1 rfl

/-- C2 witness: the amended bounds instantiated at the host-page item count
`n = 10` with a mid-drag fraction. -/
theorem opacity_range_amended_witness :
    0 ≤ opacity 10 (adjustedOffset 3 7 10 (1/2)) :=
  (opacity_range_amended 10 3 7 (1/2) (by decide)).1

/-- C3: the code does not guard the empty image sequence.  At mount
(`currentIndex = 0`) with `images = []`, the caption render reads
`images[0].caption`; `images[0]` is `undefined` (modelled: `none`), so the
property access throws instead of degrading to a placeholder state. -/
theorem empty_images_caption_lookup_fails :
    captionDisplay [] initialState = none := rfl

/-- C4: for every item count `n ≥ 1` and indices `i, c` in `[0, n)`, the
signed circular offset computed by the continuous-variant layout engine with
drag fraction zero lies in `(-n/2, n/2]`, and is zero at `i = c`. -/
theorem signedOffset_range_at_rest (n : ℕ) (i c : ℤ) (hn : 1 ≤ n)
    (hi0 : 0 ≤ i) (hi1 : i < (n : ℤ)) (hc0 : 0 ≤ c) (hc1 : c < (n : ℤ)) :
    (-(n : ℚ) / 2 < adjustedOffset i c n 0 ∧ adjustedOffset i c n 0 ≤ (n : ℚ) / 2)
    ∧ adjustedOffset c c n 0 = 0 :=
  ⟨adjustedOffset_range_aux n i c hn hi0 hc1,
   adjustedOffset_self n (by omega) c 0 rfl⟩

/-- C4 witness: the range and centering statement instantiated at `n = 7`,
`i = 2`, `c = 5`. -/
theorem signedOffset_range_at_rest_witness :
    adjustedOffset 5 5 7 0 = 0 :=
  (signedOffset_range_at_rest 7 2 5 (by norm_num) (by norm_num) (by norm_num)
    (by norm_num) (by norm_num)).2

/-- C5: both depth-scale variants are maximal exactly at signed offset zero
and monotonically non-increasing in the absolute offset: the Gaussian decay
of the continuous variant (with its configured constants) and the
piecewise-linear decay of the threshold variant (evaluated on the absolute
offset, as in the source). -/
theorem depthScale_max_at_center_and_antitone :
    (∀ x : ℝ, gaussian x MIN_SCALE MAX_SCALE SCALE_SPREAD
        ≤ gaussian 0 MIN_SCALE MAX_SCALE SCALE_SPREAD) ∧
    (∀ x : ℝ, gaussian x MIN_SCALE MAX_SCALE SCALE_SPREAD
        = gaussian 0 MIN_SCALE MAX_SCALE SCALE_SPREAD → x = 0) ∧
    (∀ a b : ℝ, |a| ≤ |b| → gaussian b MIN_SCALE MAX_SCALE SCALE_SPREAD
        ≤ gaussian a MIN_SCALE MAX_SCALE SCALE_SPREAD) ∧
    (∀ q : ℚ, pwScale |q| ≤ pwScale 0) ∧
    (∀ q : ℚ, pwScale |q| = pwScale 0 → q = 0) ∧
    (∀ a b : ℚ, |a| ≤ |b| → pwScale |b| ≤ pwScale |a|) := by
  refine ⟨gaussian_le_center, gaussian_eq_center, gaussian_mono, ?_, ?_, ?_⟩
  · intro q
    exact pwScale_anti 0 |q| le_rfl (abs_nonneg q)
  · intro q h
    by_contra hq
    have hlt := pwScale_lt_one |q| (abs_pos.mpr hq)
    have h0 : pwScale 0 = 1 := by norm_num [pwScale]
    rw [h, h0] at hlt
    exact lt_irrefl 1 hlt
  · intro a b hab
    exact pwScale_anti |a| |b| (abs_nonneg a) hab

/-- C5 witness: monotonicity of both variants instantiated at concrete
offsets. -/
theorem depthScale_max_at_center_and_antitone_witness :
    gaussian 2 MIN_SCALE MAX_SCALE SCALE_SPREAD
      ≤ gaussian 1 MIN_SCALE MAX_SCALE SCALE_SPREAD ∧
    pwScale |(3/2 : ℚ)| ≤ pwScale |(1/2 : ℚ)| :=
  ⟨depthScale_max_at_center_and_antitone.2.2.1 1 2 (by norm_num),
   depthScale_max_at_center_and_antitone.2.2.2.2.2 (1/2) (3/2)
     (by rw [abs_of_nonneg (by norm_num : (0:ℚ) ≤ 1/2),
             abs_of_nonneg (by norm_num : (0:ℚ) ≤ 3/2)]; norm_num)⟩

/-- C6: the threshold commit never fires.  A 60px rightward drag (above the
50px threshold) from `currentIndex = 0` with seven items is claimed to move
to index 6, but `handleEnd` invokes `prevImage` while the closure value of
`isDragging` is still `true`, so its guard discards the update and the index
stays 0; the 40px drag also (correctly) stays at 0. -/
theorem threshold_drag_commit_never_fires :
    (handleEndThreshold 7 (CarouselState.mk 0 true 0 60 30)).currentIndex = 0 ∧
    (handleEndThreshold 7 (CarouselState.mk 0 true 0 40 20)).currentIndex = 0 := by
  constructor
  · norm_num [handleEndThreshold, prevImage, nextImage]
  · norm_num [handleEndThreshold, prevImage, nextImage]

/-- C7: a completed drag whose end pointer position equals its start
position leaves `currentIndex` unchanged, under the continuous commit policy
and under the threshold commit policy, from every state satisfying the index
invariant. -/
theorem zero_net_drag_preserves_index (n : ℕ) (s : CarouselState) (hn : 1 ≤ n)
    (hz : s.currentX = s.startX)
    (hc0 : 0 ≤ s.currentIndex) (hc1 : s.currentIndex < (n : ℤ)) :
    (handleEnd n s).currentIndex = s.currentIndex ∧
    (handleEndThreshold n s).currentIndex = s.currentIndex := by
  constructor
  · unfold handleEnd
    by_cases hd : s.isDragging
    · rw [hd]
      simp only [Bool.not_true, Bool.false_eq_true, if_false]
      have h1 : jsRound ((s.currentX - s.startX) / SENSITIVITY) = 0 := by
        rw [hz]
        norm_num [jsRound, SENSITIVITY]
      rw [h1]
      simp [offsetImage_id n s.currentIndex (by omega) hc0 hc1]
    · simp [hd]
  · unfold handleEndThreshold
    by_cases hd : s.isDragging
    · rw [hd]
      simp only [Bool.not_true, Bool.false_eq_true, if_false]
      rw [hz]
      norm_num
    · simp [hd]

/-- C7 witness: a zero-net drag ending at index 3 of 7 keeps index 3 under
both policies. -/
theorem zero_net_drag_preserves_index_witness :
    (handleEnd 7 (CarouselState.mk 3 true 5 5 0)).currentIndex = 3 ∧
    (handleEndThreshold 7 (CarouselState.mk 3 true 5 5 0)).currentIndex = 3 :=
  zero_net_drag_preserves_index 7 (CarouselState.mk 3 true 5 5 0)
    (by norm_num) rfl (by norm_num) (by norm_num)

/-- C8: while `isDragging = true`, no discrete navigation entry point
changes the state: the two arrow buttons of the continuous variant (disabled
while dragging), the guarded `nextImage` and `prevImage` callbacks of the
threshold variant, and click-to-select on any item. -/
theorem discrete_nav_noop_while_dragging (n : ℕ) (i : ℤ) (s : CarouselState)
    (hd : s.isDragging = true) :
    prevArrowClick n s = s ∧ nextArrowClick n s = s ∧
    nextImage n s.isDragging s = s ∧ prevImage n s.isDragging s = s ∧
    itemClick i s = s := by
  refine ⟨?_, ?_, ?_, ?_, ?_⟩ <;>
    simp [prevArrowClick, nextArrowClick, nextImage, prevImage, itemClick, hd]

/-- C8 witness: every navigation operation is a no-op on a concrete dragging
state. -/
theorem discrete_nav_noop_while_dragging_witness :
    prevArrowClick 7 (CarouselState.mk 0 true 0 0 0) = CarouselState.mk 0 true 0 0 0 :=
  (discrete_nav_noop_while_dragging 7 3 (CarouselState.mk 0 true 0 0 0) rfl).1

/-- C9: clicking the already-centered item at rest leaves the entire state
unchanged, since the click handler requires `index !== currentIndex`. -/
theorem itemClick_centered_noop (s : CarouselState) (hd : s.isDragging = false) :
    itemClick s.currentIndex s = s := by
  simp [itemClick]

/-- C9 witness: clicking the centered item of a concrete resting state. -/
theorem itemClick_centered_noop_witness :
    itemClick 2 (CarouselState.mk 2 false 0 0 0) = CarouselState.mk 2 false 0 0 0 :=
  itemClick_centered_noop (CarouselState.mk 2 false 0 0 0) rfl

/-- C10: for every real signed offset, the Gaussian depth scale with the
configured constants lies strictly above `MIN_SCALE` and at most
`MAX_SCALE`. -/
theorem gaussian_scale_strict_bounds :
    ∀ x : ℝ, MIN_SCALE < gaussian x MIN_SCALE MAX_SCALE SCALE_SPREAD ∧
             gaussian x MIN_SCALE MAX_SCALE SCALE_SPREAD ≤ MAX_SCALE := by
  intro x
  unfold gaussian MIN_SCALE MAX_SCALE SCALE_SPREAD
  norm_num
  have h1 : 0 < Real.exp (-(x * x)) := Real.exp_pos _
  have h2 : Real.exp (-(x * x)) ≤ 1 := by
    rw [Real.exp_le_one_iff]
    nlinarith [mul_self_nonneg x]
  constructor <;> linarith

end Photobook
